import Mathlib

/-
  Shallow embedding of the file-manager backend (src/server/server.js and the
  schema/second variant in src/unnamed/part_000).

  The authoritative source is src/server/server.js: an Express app with
  routes /register, /login, /upload, /files/:id (GET), /files/:id (DELETE),
  a token-validation middleware, a Users collection, a Files collection and
  a GridFS blob store.  MongoDB, bcrypt and jsonwebtoken are external
  collaborators; they are modelled by executable Lean functions faithful to
  their documented contracts (bcrypt: salted one-way hash with hash/compare;
  jwt: sign-then-verify under a shared secret; mongoose collections: lists
  of documents with findOne / save / findByIdAndUpdate).
-/

namespace FileManager

/-- A stored user document (Users collection; fields used by server.js:
`_id`, `name`, `email`, `password` holding the bcrypt hash, `createdAt`,
and the `files` array pushed to on upload). -/
structure UserRec where
  id : Nat
  name : String
  email : String
  password : String
  createdAt : Nat
  files : List String
deriving Repr, DecidableEq

/-- A stored file-metadata document (Files collection, models/File.js in
src/unnamed/part_000: filename, originalname, contentType, size, owner). -/
structure FileRec where
  id : Nat
  filename : String
  originalname : String
  contentType : String
  size : Nat
  owner : Nat
deriving Repr, DecidableEq

/-- A GridFS blob-store entry (the `files` collection queried through
`gfs.files` / removed through `gfs.remove`). -/
structure BlobRec where
  id : Nat
  filename : String
deriving Repr, DecidableEq

/-- The payload jwt.sign embeds in server.js lines 131-140 and 170-179:
userId, name, email, password hash and createdAt. -/
structure Claims where
  userId : Nat
  name : String
  email : String
  password : String
  createdAt : Nat
deriving Repr, DecidableEq

/-- A signed token, modelled per the jsonwebtoken contract: an opaque
structure carrying the claims and the secret it was signed with; it
verifies under a secret iff the secrets agree. -/
structure Token where
  claims : Claims
  secret : String
deriving Repr, DecidableEq

/-- jwt.sign: sign claims with a secret. -/
def jwtSign (c : Claims) (secret : String) : Token :=
  ⟨c, secret⟩

/-- jwt.verify: returns the decoded claims when the token was signed with
the given secret, and fails (throws, modelled as none) otherwise. -/
def jwtVerify (t : Token) (secret : String) : Option Claims :=
  if t.secret = secret then some t.claims else none

/-- bcrypt.hash with fixed cost 10, modelled per its contract as an
injective one-way function from the password to a hash string. -/
def bcryptHash (p : String) : String :=
  "$2b$10$" ++ p

/-- bcrypt.compare: succeeds exactly when the hash was produced from the
supplied password. -/
def bcryptCompare (p h : String) : Bool :=
  bcryptHash p == h

/-- The error taxonomy of the HTTP handlers (spec section 7), one
constructor per distinct failure response in server.js. -/
inductive ApiError where
  | duplicateUser
  | userNotFound
  | invalidCredentials
  | unauthorized
  | invalidToken
  | noFilePresent
  | notFound
  | storageError
  | serverError
deriving Repr, DecidableEq

instance {ε α : Type} [DecidableEq ε] [DecidableEq α] :
    DecidableEq (Except ε α) := fun x y =>
  match x, y with
  | .ok a, .ok b => decidable_of_iff (a = b) ⟨congrArg _, Except.ok.inj⟩
  | .ok _, .error _ => isFalse fun h => Except.noConfusion h
  | .error _, .ok _ => isFalse fun h => Except.noConfusion h
  | .error e, .error e' =>
    decidable_of_iff (e = e') ⟨congrArg _, Except.error.inj⟩

/-- The persistent state: the Users collection, the Files collection, the
GridFS blob store, and the id counters the database assigns from. -/
structure ServerState where
  users : List UserRec
  files : List FileRec
  blobs : List BlobRec
  nextUserId : Nat
  nextFileId : Nat
  nextBlobId : Nat
deriving Repr, DecidableEq

/-- The empty database. -/
def initialState : ServerState :=
  ⟨[], [], [], 0, 0, 0⟩

/-- The validateToken middleware (server.js lines 25-39): missing header
gives 401 Unauthorized; a header whose jwt.verify throws gives 401
Invalid token; otherwise the decoded claims are attached to the request
(returned here) and the downstream handler runs. -/
def validateToken (tokenHeader : Option Token) (secret : String) :
    Except ApiError Claims :=
  match tokenHeader with
  | none => .error .unauthorized
  | some t =>
    match jwtVerify t secret with
    | some decoded => .ok decoded
    | none => .error .invalidToken

/-- The POST /register handler (server.js lines 111-147): findOne by
email, reject duplicates with 400, else hash the password, save the new
user, sign a token over its identity fields and return both. -/
def register (st : ServerState) (name email password : String)
    (createdAt : Nat) (secret : String) :
    ServerState × Except ApiError (UserRec × Token) :=
  match st.users.find? (fun u => u.email == email) with
  | some _ => (st, .error .duplicateUser)
  | none =>
    let hashedPassword := bcryptHash password
    let newUser : UserRec :=
      ⟨st.nextUserId, name, email, hashedPassword, createdAt, []⟩
    let st' := { st with users := st.users ++ [newUser],
                         nextUserId := st.nextUserId + 1 }
    let token := jwtSign
      ⟨newUser.id, newUser.name, newUser.email, newUser.password,
       newUser.createdAt⟩ secret
    (st', .ok (newUser, token))

/-- The POST /login handler (server.js lines 149-189): the whole body runs
in a try/catch whose catch answers 500 Server error, modelled by the
dbFail flag; otherwise findOne by email (400 if absent), bcrypt.compare
against the stored hash (400 if it fails), then sign and return a token
over the stored user's identity fields.  Login never writes. -/
def login (st : ServerState) (email password : String) (secret : String)
    (dbFail : Bool) : Except ApiError (UserRec × Token) :=
  if dbFail then .error .serverError
  else
    match st.users.find? (fun u => u.email == email) with
    | none => .error .userNotFound
    | some user =>
      if bcryptCompare password user.password then
        .ok (user, jwtSign
          ⟨user.id, user.name, user.email, user.password, user.createdAt⟩
          secret)
      else .error .invalidCredentials

/-- The multipart file part of an upload request, as multer hands it to
the handler. -/
structure UploadPayload where
  originalname : String
  contentType : String
  size : Nat
deriving Repr, DecidableEq

/-- The GridFsStorage file option (server.js lines 51-56): the storage
filename is exactly the client-supplied original name. -/
def storageFilename (p : UploadPayload) : String :=
  p.originalname

/-- The POST /upload route (server.js lines 61-82) with its middleware
chain: validateToken first, then multer stores the blob under
storageFilename when a file part is present, then the handler answers 400
No file uploaded if req.file is absent, else saves a File document owned
by the token's userId and pushes the storage filename onto the owner's
files array via findByIdAndUpdate (a no-op when no user has that id). -/
def uploadRoute (st : ServerState) (tokenHeader : Option Token)
    (secret : String) (payload : Option UploadPayload) :
    ServerState × Except ApiError FileRec :=
  match validateToken tokenHeader secret with
  | .error e => (st, .error e)
  | .ok claims =>
    match payload with
    | none => (st, .error .noFilePresent)
    | some p =>
      let fname := storageFilename p
      let stBlob := { st with
        blobs := st.blobs ++ [(⟨st.nextBlobId, fname⟩ : BlobRec)],
        nextBlobId := st.nextBlobId + 1 }
      let newFile : FileRec :=
        ⟨stBlob.nextFileId, fname, p.originalname, p.contentType, p.size,
         claims.userId⟩
      let st1 := { stBlob with files := stBlob.files ++ [newFile],
                               nextFileId := stBlob.nextFileId + 1 }
      let st2 := { st1 with users := st1.users.map (fun (u : UserRec) =>
        if u.id == claims.userId then { u with files := u.files ++ [fname] }
        else u) }
      (st2, .ok newFile)

/-- The GET /files/:id handler (server.js lines 85-95): gfs.files.findOne
by id; a storage error answers 500, a missing blob 404, else the blob
metadata is returned.  A pure read. -/
def getFile (st : ServerState) (fileId : Nat) (storageErr : Bool) :
    Except ApiError BlobRec :=
  if storageErr then .error .storageError
  else
    match st.blobs.find? (fun b => b.id == fileId) with
    | none => .error .notFound
    | some b => .ok b

/-- The DELETE /files/:id handler (server.js lines 98-105): gfs.remove
under root uploads; an error from the blob store answers 500, anything
else 200.  There is no not-found branch, and the Files collection is
never touched. -/
def deleteFile (st : ServerState) (fileId : Nat) (storageErr : Bool) :
    ServerState × Except ApiError Unit :=
  if storageErr then (st, .error .storageError)
  else ({ st with blobs := st.blobs.filter (fun b => !(b.id == fileId)) },
        .ok ())

/-- Tokens minted by a register or login response: the signed token on
success, nothing on failure. -/
def mintedTokens (r : Except ApiError (UserRec × Token)) : List Token :=
  match r with
  | .ok (_, t) => [t]
  | .error _ => []

/-- States reachable from the empty database by the operations in scope
(register, login, verifyToken, upload, getFile, deleteFile), together
with the list of tokens the server has minted so far.  The closed-system
assumption of the spec (the signing secret lives only in server
configuration) appears as the hclosed premise of stepUpload: a token that
verifies under the server secret must have been minted by a previous
register or login. -/
inductive Reachable (secret : String) : ServerState → List Token → Prop where
  | init : Reachable secret initialState []
  | stepRegister (st : ServerState) (toks : List Token)
      (name email password : String) (createdAt : Nat)
      (h : Reachable secret st toks) :
      Reachable secret (register st name email password createdAt secret).1
        (toks ++ mintedTokens (register st name email password createdAt secret).2)
  | stepLogin (st : ServerState) (toks : List Token)
      (email password : String) (dbFail : Bool)
      (h : Reachable secret st toks) :
      Reachable secret st
        (toks ++ mintedTokens (login st email password secret dbFail))
  | stepVerify (st : ServerState) (toks : List Token)
      (tokenHeader : Option Token) (h : Reachable secret st toks) :
      Reachable secret st toks
  | stepUpload (st : ServerState) (toks : List Token)
      (tokenHeader : Option Token) (payload : Option UploadPayload)
      (hclosed : ∀ t, tokenHeader = some t → t.secret = secret → t ∈ toks)
      (h : Reachable secret st toks) :
      Reachable secret (uploadRoute st tokenHeader secret payload).1 toks
  | stepGetFile (st : ServerState) (toks : List Token)
      (fileId : Nat) (storageErr : Bool) (h : Reachable secret st toks) :
      Reachable secret st toks
  | stepDelete (st : ServerState) (toks : List Token)
      (fileId : Nat) (storageErr : Bool) (h : Reachable secret st toks) :
      Reachable secret (deleteFile st fileId storageErr).1 toks

/-- The owner-existence invariant of the File collection (spec section 3):
every file document's owner field is the id of some stored user. -/
def ownerInvariant (st : ServerState) : Bool :=
  st.files.all (fun f => st.users.any (fun u => u.id == f.owner))

/-! Helper lemmas shared by the claim theorems. -/

theorem find?_email_eq_none {l : List UserRec} {email : String}
    (h : ∀ u ∈ l, u.email ≠ email) :
    l.find? (fun u => u.email == email) = none :=
  List.find?_eq_none.mpr fun u hu => by simpa using h u hu

theorem register_of_find?_some {st : ServerState} {email : String}
    {w : UserRec}
    (hfind : st.users.find? (fun u => u.email == email) = some w)
    (name password : String) (createdAt : Nat) (secret : String) :
    register st name email password createdAt secret
      = (st, Except.error ApiError.duplicateUser) := by
  unfold register
  rw [hfind]

theorem register_of_find?_none {st : ServerState} {email : String}
    (hfind : st.users.find? (fun u => u.email == email) = none)
    (name password : String) (createdAt : Nat) (secret : String) :
    register st name email password createdAt secret
      = ({ st with
            users := st.users ++
              [⟨st.nextUserId, name, email, bcryptHash password, createdAt, []⟩],
            nextUserId := st.nextUserId + 1 },
         Except.ok
           (⟨st.nextUserId, name, email, bcryptHash password, createdAt, []⟩,
            jwtSign ⟨st.nextUserId, name, email, bcryptHash password, createdAt⟩
              secret)) := by
  unfold register
  rw [hfind]

/-- C1: if some stored user already has the requested email, register
answers DuplicateUser (a 400) and leaves the store unchanged; starting
from a state with no user under that email, a second register with the
same email fails with DuplicateUser, changes nothing, and exactly one
user record with that email persists. -/
theorem register_duplicate_email (st : ServerState)
    (name email password : String) (createdAt : Nat) (secret : String) :
    ((∃ u ∈ st.users, u.email = email) →
      register st name email password createdAt secret
        = (st, Except.error ApiError.duplicateUser)) ∧
    ((∀ u ∈ st.users, u.email ≠ email) →
      ∀ name2 password2 createdAt2,
        register (register st name email password createdAt secret).1
            name2 email password2 createdAt2 secret
          = ((register st name email password createdAt secret).1,
             Except.error ApiError.duplicateUser) ∧
        ((register st name email password createdAt secret).1.users.filter
            (fun u => u.email == email)).length = 1) := by
  constructor
  · rintro ⟨u, hu, he⟩
    cases hfind : st.users.find? (fun v => v.email == email) with
    | none =>
      exact absurd (by simpa using List.find?_eq_none.mp hfind u hu) (by simp [he])
    | some w =>
      exact register_of_find?_some hfind name password createdAt secret
  · intro hnew name2 password2 createdAt2
    have hnone := find?_email_eq_none hnew
    have husers : (register st name email password createdAt secret).1.users
        = st.users ++ [⟨st.nextUserId, name, email, bcryptHash password, createdAt, []⟩] := by
      rw [register_of_find?_none hnone]
    constructor
    · have hfind2 : (register st name email password createdAt secret).1.users.find?
          (fun v => v.email == email)
          = some ⟨st.nextUserId, name, email, bcryptHash password, createdAt, []⟩ := by
        rw [husers, List.find?_append, hnone]
        simp
      exact register_of_find?_some hfind2 name2 password2 createdAt2 secret
    · rw [husers, List.filter_append]
      have : st.users.filter (fun u => u.email == email) = [] :=
        List.filter_eq_nil_iff.mpr fun u hu => by simpa using hnew u hu
      simp [this]

/-- C1 witness: concrete duplicate registration from a one-user store. -/
theorem register_duplicate_email_witness :
    register (register initialState "Alice" "alice@x.com" "pw1" 5 "sec").1
        "Bob" "alice@x.com" "pw2" 6 "sec"
      = ((register initialState "Alice" "alice@x.com" "pw1" 5 "sec").1,
         Except.error ApiError.duplicateUser) ∧
    ((register initialState "Alice" "alice@x.com" "pw1" 5 "sec").1.users.filter
        (fun u => u.email == "alice@x.com")).length = 1 :=
  (register_duplicate_email initialState "Alice" "alice@x.com" "pw1" 5 "sec").2
    (by intro u hu; simp [initialState] at hu) "Bob" "pw2" 6

/-- C3: the token-verification middleware answers Unauthorized (401) when
the token header is absent, InvalidToken (also 401) when signature
verification under the signing secret fails, and on success returns the
decoded claims (userId included) to the downstream handler. -/
theorem validateToken_spec (secret : String) (t : Token) :
    validateToken none secret = Except.error ApiError.unauthorized ∧
    (jwtVerify t secret = none →
      validateToken (some t) secret = Except.error ApiError.invalidToken) ∧
    (∀ c : Claims, jwtVerify t secret = some c →
      validateToken (some t) secret = Except.ok c) := by
  refine ⟨rfl, ?_, ?_⟩
  · intro h
    simp [validateToken, h]
  · intro c h
    simp [validateToken, h]

/-- C3 witness: concrete middleware outcomes for a missing header, a token
signed under the wrong secret, and a well-signed token. -/
theorem validateToken_spec_witness :
    validateToken none "sec" = Except.error ApiError.unauthorized ∧
    validateToken (some (jwtSign ⟨0, "A", "a@x.com", "h0", 1⟩ "bad")) "sec"
      = Except.error ApiError.invalidToken ∧
    validateToken (some (jwtSign ⟨0, "A", "a@x.com", "h0", 1⟩ "sec")) "sec"
      = Except.ok ⟨0, "A", "a@x.com", "h0", 1⟩ :=
  ⟨(validateToken_spec "sec" (jwtSign ⟨0, "A", "a@x.com", "h0", 1⟩ "bad")).1,
   (validateToken_spec "sec" (jwtSign ⟨0, "A", "a@x.com", "h0", 1⟩ "bad")).2.1
     (by decide),
   (validateToken_spec "sec" (jwtSign ⟨0, "A", "a@x.com", "h0", 1⟩ "sec")).2.2
     ⟨0, "A", "a@x.com", "h0", 1⟩ (by decide)⟩

/-- C4: login answers ServerError (500) on an unexpected data-access
failure, UserNotFound when no stored user has the email, and
InvalidCredentials when the bcrypt comparison against the matched user's
stored hash fails; on success it returns that user and a token signed
over the user's identity fields. -/
theorem login_error_taxonomy (st : ServerState)
    (email password secret : String) :
    login st email password secret true = Except.error ApiError.serverError ∧
    ((∀ u ∈ st.users, u.email ≠ email) →
      login st email password secret false
        = Except.error ApiError.userNotFound) ∧
    (∀ u, st.users.find? (fun v => v.email == email) = some u →
      bcryptCompare password u.password = false →
      login st email password secret false
        = Except.error ApiError.invalidCredentials) ∧
    (∀ u, st.users.find? (fun v => v.email == email) = some u →
      bcryptCompare password u.password = true →
      login st email password secret false
        = Except.ok (u, jwtSign ⟨u.id, u.name, u.email, u.password, u.createdAt⟩
            secret)) := by
  refine ⟨rfl, ?_, ?_, ?_⟩
  · intro hnew
    simp [login, find?_email_eq_none hnew]
  · intro u hfind hcmp
    simp [login, hfind, hcmp]
  · intro u hfind hcmp
    simp [login, hfind, hcmp]

/-- C4 witness: concrete login outcomes against a one-user store — a
data-access failure, an unknown email, a wrong password and a correct
password. -/
theorem login_error_taxonomy_witness :
    login (register initialState "Alice" "alice@x.com" "pw1" 5 "sec").1
        "alice@x.com" "pw1" "sec" true = Except.error ApiError.serverError ∧
    login (register initialState "Alice" "alice@x.com" "pw1" 5 "sec").1
        "bob@x.com" "pw1" "sec" false = Except.error ApiError.userNotFound ∧
    login (register initialState "Alice" "alice@x.com" "pw1" 5 "sec").1
        "alice@x.com" "wrong" "sec" false
      = Except.error ApiError.invalidCredentials ∧
    login (register initialState "Alice" "alice@x.com" "pw1" 5 "sec").1
        "alice@x.com" "pw1" "sec" false
      = Except.ok (⟨0, "Alice", "alice@x.com", bcryptHash "pw1", 5, []⟩,
          jwtSign ⟨0, "Alice", "alice@x.com", bcryptHash "pw1", 5⟩ "sec") :=
  ⟨(login_error_taxonomy (register initialState "Alice" "alice@x.com" "pw1" 5
      "sec").1 "alice@x.com" "pw1" "sec").1,
   (login_error_taxonomy (register initialState "Alice" "alice@x.com" "pw1" 5
      "sec").1 "bob@x.com" "pw1" "sec").2.1 (by decide),
   (login_error_taxonomy (register initialState "Alice" "alice@x.com" "pw1" 5
      "sec").1 "alice@x.com" "wrong" "sec").2.2.1
     ⟨0, "Alice", "alice@x.com", bcryptHash "pw1", 5, []⟩ (by decide) (by decide),
   (login_error_taxonomy (register initialState "Alice" "alice@x.com" "pw1" 5
      "sec").1 "alice@x.com" "pw1" "sec").2.2.2
     ⟨0, "Alice", "alice@x.com", bcryptHash "pw1", 5, []⟩ (by decide) (by decide)⟩

theorem uploadRoute_ok {tokenHeader : Option Token} {secret : String}
    {c : Claims}
    (hver : validateToken tokenHeader secret = Except.ok c)
    (st : ServerState) (p : UploadPayload) :
    uploadRoute st tokenHeader secret (some p)
      = ({ st with
            blobs := st.blobs ++ [⟨st.nextBlobId, storageFilename p⟩],
            nextBlobId := st.nextBlobId + 1,
            files := st.files ++
              [⟨st.nextFileId, storageFilename p, p.originalname,
                p.contentType, p.size, c.userId⟩],
            nextFileId := st.nextFileId + 1,
            users := st.users.map (fun (u : UserRec) =>
              if u.id == c.userId
              then { u with files := u.files ++ [storageFilename p] }
              else u) },
         Except.ok ⟨st.nextFileId, storageFilename p, p.originalname,
                    p.contentType, p.size, c.userId⟩) := by
  unfold uploadRoute
  rw [hver]

/-- C2: an upload carrying a verified token and a file payload creates
exactly one new File record, owned by the token's userId claim, and the
Users store changes only by pushing the storage filename onto the
matching owner's files array. -/
theorem upload_creates_single_owned_file (st : ServerState) (tok : Token)
    (secret : String) (p : UploadPayload) (c : Claims)
    (hver : validateToken (some tok) secret = Except.ok c) :
    (uploadRoute st (some tok) secret (some p)).2
      = Except.ok ⟨st.nextFileId, storageFilename p, p.originalname,
                   p.contentType, p.size, c.userId⟩ ∧
    (uploadRoute st (some tok) secret (some p)).1.files
      = st.files ++ [⟨st.nextFileId, storageFilename p, p.originalname,
                      p.contentType, p.size, c.userId⟩] ∧
    (uploadRoute st (some tok) secret (some p)).1.users
      = st.users.map (fun (u : UserRec) => if u.id == c.userId
          then { u with files := u.files ++ [storageFilename p] } else u) := by
  rw [uploadRoute_ok hver]
  exact ⟨rfl, rfl, rfl⟩

/-- C2 witness: a concrete upload into the one-user store creates the one
file record owned by user 0 and pushes its filename onto that user's
list. -/
theorem upload_creates_single_owned_file_witness :
    (uploadRoute (register initialState "Alice" "alice@x.com" "pw1" 5 "sec").1
        (some (jwtSign ⟨0, "Alice", "alice@x.com", bcryptHash "pw1", 5⟩ "sec"))
        "sec" (some ⟨"a.txt", "text/plain", 3⟩)).2
      = Except.ok ⟨0, "a.txt", "a.txt", "text/plain", 3, 0⟩ ∧
    (uploadRoute (register initialState "Alice" "alice@x.com" "pw1" 5 "sec").1
        (some (jwtSign ⟨0, "Alice", "alice@x.com", bcryptHash "pw1", 5⟩ "sec"))
        "sec" (some ⟨"a.txt", "text/plain", 3⟩)).1.files
      = [⟨0, "a.txt", "a.txt", "text/plain", 3, 0⟩] ∧
    (uploadRoute (register initialState "Alice" "alice@x.com" "pw1" 5 "sec").1
        (some (jwtSign ⟨0, "Alice", "alice@x.com", bcryptHash "pw1", 5⟩ "sec"))
        "sec" (some ⟨"a.txt", "text/plain", 3⟩)).1.users
      = [⟨0, "Alice", "alice@x.com", bcryptHash "pw1", 5, ["a.txt"]⟩] :=
  upload_creates_single_owned_file
    (register initialState "Alice" "alice@x.com" "pw1" 5 "sec").1
    (jwtSign ⟨0, "Alice", "alice@x.com", bcryptHash "pw1", 5⟩ "sec") "sec"
    ⟨"a.txt", "text/plain", 3⟩ ⟨0, "Alice", "alice@x.com", bcryptHash "pw1", 5⟩
    (by decide)

/-- C5 counterexample: two uploads with the same original filename through
the actual GridFsStorage configuration receive the SAME storage filename
(both records carry filename a.txt, equal to the client-supplied name),
refuting collision-resistance and independence from the original name. -/
theorem upload_same_originalname_same_storage_filename :
    (uploadRoute (register initialState "Alice" "alice@x.com" "pw1" 5 "sec").1
        (some (jwtSign ⟨0, "Alice", "alice@x.com", bcryptHash "pw1", 5⟩ "sec"))
        "sec" (some ⟨"a.txt", "text/plain", 3⟩)).2
      = Except.ok ⟨0, "a.txt", "a.txt", "text/plain", 3, 0⟩ ∧
    (uploadRoute
        (uploadRoute (register initialState "Alice" "alice@x.com" "pw1" 5
            "sec").1
          (some (jwtSign ⟨0, "Alice", "alice@x.com", bcryptHash "pw1", 5⟩
            "sec"))
          "sec" (some ⟨"a.txt", "text/plain", 3⟩)).1
        (some (jwtSign ⟨0, "Alice", "alice@x.com", bcryptHash "pw1", 5⟩ "sec"))
        "sec" (some ⟨"a.txt", "image/png", 7⟩)).2
      = Except.ok ⟨1, "a.txt", "a.txt", "image/png", 7, 0⟩ := by
  exact ⟨rfl, rfl⟩

/-- C5 amended: the storage filename of every upload equals the
client-supplied original name, so two uploads with the same original
filename receive the same (not distinct) storage filenames. -/
theorem upload_storage_filename_matches_original (st st' : ServerState)
    (tokenHeader tokenHeader' : Option Token) (secret : String)
    (p q : UploadPayload) (c c' : Claims)
    (h : validateToken tokenHeader secret = Except.ok c)
    (h' : validateToken tokenHeader' secret = Except.ok c')
    (hname : p.originalname = q.originalname) :
    ∀ f g : FileRec,
      (uploadRoute st tokenHeader secret (some p)).2 = Except.ok f →
      (uploadRoute st' tokenHeader' secret (some q)).2 = Except.ok g →
      f.filename = p.originalname ∧ g.filename = q.originalname ∧
      f.filename = g.filename := by
  intro f g hf hg
  rw [uploadRoute_ok h] at hf
  rw [uploadRoute_ok h'] at hg
  simp only [Except.ok.injEq] at hf hg
  subst hf
  subst hg
  exact ⟨rfl, rfl, by simpa [storageFilename] using hname⟩

/-- C5 amended witness: the two concrete uploads of the counterexample
both land under storage filename a.txt. -/
theorem upload_storage_filename_matches_original_witness :
    (⟨0, "a.txt", "a.txt", "text/plain", 3, 0⟩ : FileRec).filename
      = (⟨"a.txt", "text/plain", 3⟩ : UploadPayload).originalname ∧
    (⟨0, "a.txt", "a.txt", "image/png", 7, 0⟩ : FileRec).filename
      = (⟨"a.txt", "image/png", 7⟩ : UploadPayload).originalname ∧
    (⟨0, "a.txt", "a.txt", "text/plain", 3, 0⟩ : FileRec).filename
      = (⟨0, "a.txt", "a.txt", "image/png", 7, 0⟩ : FileRec).filename :=
  upload_storage_filename_matches_original initialState initialState
    (some (jwtSign ⟨0, "Alice", "alice@x.com", bcryptHash "pw1", 5⟩ "sec"))
    (some (jwtSign ⟨0, "Alice", "alice@x.com", bcryptHash "pw1", 5⟩ "sec"))
    "sec" ⟨"a.txt", "text/plain", 3⟩ ⟨"a.txt", "image/png", 7⟩
    ⟨0, "Alice", "alice@x.com", bcryptHash "pw1", 5⟩
    ⟨0, "Alice", "alice@x.com", bcryptHash "pw1", 5⟩
    (by decide) (by decide) rfl
    ⟨0, "a.txt", "a.txt", "text/plain", 3, 0⟩
    ⟨0, "a.txt", "a.txt", "image/png", 7, 0⟩
    (by decide) (by decide)

/-- C7 counterexample: from the empty blob store (so no file with id 1
exists) and with no storage failure, the delete route answers success,
not NotFound — the handler has no not-found branch. -/
theorem deleteFile_missing_file_not_notFound :
    initialState.blobs = [] ∧
    deleteFile initialState 1 false = (initialState, Except.ok ()) ∧
    (deleteFile initialState 1 false).2 ≠ Except.error ApiError.notFound := by
  exact ⟨rfl, rfl, by decide⟩

/-- C7 amended: deleteFile fails with StorageError (500) exactly when the
blob-store removal errors and succeeds otherwise — even when no file
with the given id exists, there is no NotFound outcome — and in no case
does it modify the File Metadata Store (or the Users store). -/
theorem deleteFile_taxonomy (st : ServerState) (fileId : Nat)
    (storageErr : Bool) :
    (storageErr = true →
      deleteFile st fileId storageErr
        = (st, Except.error ApiError.storageError)) ∧
    (storageErr = false → (deleteFile st fileId storageErr).2 = Except.ok ()) ∧
    (deleteFile st fileId storageErr).1.files = st.files ∧
    (deleteFile st fileId storageErr).1.users = st.users := by
  cases storageErr <;> simp [deleteFile]

/-- C7 amended witness: concrete delete outcomes on the empty store, with
and without a storage failure. -/
theorem deleteFile_taxonomy_witness :
    deleteFile initialState 7 true
      = (initialState, Except.error ApiError.storageError) ∧
    (deleteFile initialState 7 false).2 = Except.ok () ∧
    (deleteFile initialState 7 false).1.files = initialState.files ∧
    (deleteFile initialState 7 false).1.users = initialState.users :=
  ⟨(deleteFile_taxonomy initialState 7 true).1 rfl,
   (deleteFile_taxonomy initialState 7 false).2.1 rfl,
   (deleteFile_taxonomy initialState 7 false).2.2.1,
   (deleteFile_taxonomy initialState 7 false).2.2.2⟩

/-- C8: an upload carrying a verified token but no file payload answers
NoFilePresent (400) and returns the state unchanged — Users, Files and
blob store untouched. -/
theorem upload_no_payload_no_side_effects (st : ServerState)
    (tokenHeader : Option Token) (secret : String) (c : Claims)
    (hver : validateToken tokenHeader secret = Except.ok c) :
    uploadRoute st tokenHeader secret none
      = (st, Except.error ApiError.noFilePresent) := by
  unfold uploadRoute
  rw [hver]

/-- C8 witness: a concrete payload-less upload with a well-signed token
leaves the one-user store untouched. -/
theorem upload_no_payload_no_side_effects_witness :
    uploadRoute (register initialState "Alice" "alice@x.com" "pw1" 5 "sec").1
        (some (jwtSign ⟨0, "Alice", "alice@x.com", bcryptHash "pw1", 5⟩ "sec"))
        "sec" none
      = ((register initialState "Alice" "alice@x.com" "pw1" 5 "sec").1,
         Except.error ApiError.noFilePresent) :=
  upload_no_payload_no_side_effects
    (register initialState "Alice" "alice@x.com" "pw1" 5 "sec").1
    (some (jwtSign ⟨0, "Alice", "alice@x.com", bcryptHash "pw1", 5⟩ "sec"))
    "sec" ⟨0, "Alice", "alice@x.com", bcryptHash "pw1", 5⟩ (by decide)

/-- C10: the success responses of register and login carry the stored
user document itself, bcrypt password-hash field included, and the same
hash is also embedded in the returned token's claims. -/
theorem responses_include_password_hash (st : ServerState)
    (name email password : String) (createdAt : Nat) (secret : String) :
    (∀ u t, (register st name email password createdAt secret).2
        = Except.ok (u, t) →
      u ∈ (register st name email password createdAt secret).1.users ∧
      u.password = bcryptHash password ∧
      t.claims.password = u.password) ∧
    (∀ u t dbFail, login st email password secret dbFail = Except.ok (u, t) →
      u ∈ st.users ∧ t.claims.password = u.password) := by
  constructor
  · intro u t h
    cases hfind : st.users.find? (fun v => v.email == email) with
    | some w =>
      rw [register_of_find?_some hfind] at h
      simp at h
    | none =>
      rw [register_of_find?_none hfind] at h
      simp only [Except.ok.injEq, Prod.mk.injEq] at h
      obtain ⟨h1, h2⟩ := h
      subst h1
      subst h2
      rw [register_of_find?_none hfind]
      exact ⟨by simp, rfl, rfl⟩
  · intro u t dbFail h
    cases dbFail with
    | true => simp [login] at h
    | false =>
      cases hfind : st.users.find? (fun v => v.email == email) with
      | none => simp [login, hfind] at h
      | some w =>
        cases hcmp : bcryptCompare password w.password with
        | false => simp [login, hfind, hcmp] at h
        | true =>
          simp only [login, hfind, hcmp, if_true, Bool.false_eq_true,
            if_false, Except.ok.injEq, Prod.mk.injEq] at h
          obtain ⟨h1, h2⟩ := h
          subst h1
          subst h2
          exact ⟨List.mem_of_find?_eq_some hfind, rfl⟩

/-- C10 witness: the concrete register response exposes user 0's stored
document with its bcrypt hash, which also sits in the token claims. -/
theorem responses_include_password_hash_witness :
    (⟨0, "Alice", "alice@x.com", bcryptHash "pw1", 5, []⟩ : UserRec)
      ∈ (register initialState "Alice" "alice@x.com" "pw1" 5 "sec").1.users ∧
    (⟨0, "Alice", "alice@x.com", bcryptHash "pw1", 5, []⟩ : UserRec).password
      = bcryptHash "pw1" ∧
    (jwtSign ⟨0, "Alice", "alice@x.com", bcryptHash "pw1", 5⟩
        "sec").claims.password
      = (⟨0, "Alice", "alice@x.com", bcryptHash "pw1", 5, []⟩ :
          UserRec).password :=
  (responses_include_password_hash initialState "Alice" "alice@x.com" "pw1" 5
      "sec").1
    ⟨0, "Alice", "alice@x.com", bcryptHash "pw1", 5, []⟩
    (jwtSign ⟨0, "Alice", "alice@x.com", bcryptHash "pw1", 5⟩ "sec")
    (by decide)

theorem uploadRoute_err {tokenHeader : Option Token} {secret : String}
    {e : ApiError}
    (hver : validateToken tokenHeader secret = Except.error e)
    (st : ServerState) (payload : Option UploadPayload) :
    uploadRoute st tokenHeader secret payload = (st, Except.error e) := by
  unfold uploadRoute
  rw [hver]

theorem uploadRoute_noFile {tokenHeader : Option Token} {secret : String}
    {c : Claims}
    (hver : validateToken tokenHeader secret = Except.ok c)
    (st : ServerState) :
    uploadRoute st tokenHeader secret none
      = (st, Except.error ApiError.noFilePresent) := by
  unfold uploadRoute
  rw [hver]

theorem login_ok_user_mem {st : ServerState} {email password secret : String}
    {dbFail : Bool} {u : UserRec} {t : Token}
    (h : login st email password secret dbFail = Except.ok (u, t)) :
    u ∈ st.users ∧ t.claims.userId = u.id := by
  cases dbFail with
  | true => simp [login] at h
  | false =>
    cases hfind : st.users.find? (fun v => v.email == email) with
    | none => simp [login, hfind] at h
    | some w =>
      cases hcmp : bcryptCompare password w.password with
      | false => simp [login, hfind, hcmp] at h
      | true =>
        have hred : login st email password secret false
            = Except.ok (w, jwtSign ⟨w.id, w.name, w.email, w.password,
                w.createdAt⟩ secret) := by
          simp [login, hfind, hcmp]
        rw [hred] at h
        obtain ⟨h1, h2⟩ := (Prod.mk.injEq _ _ _ _).mp (Except.ok.inj h)
        subst h1
        subst h2
        exact ⟨List.mem_of_find?_eq_some hfind, rfl⟩

theorem validateToken_ok_inv {tokenHeader : Option Token} {secret : String}
    {c : Claims}
    (hval : validateToken tokenHeader secret = Except.ok c) :
    ∃ t, tokenHeader = some t ∧ t.secret = secret ∧ c = t.claims := by
  cases tokenHeader with
  | none => simp [validateToken] at hval
  | some t =>
    by_cases hsec : t.secret = secret
    · simp [validateToken, jwtVerify, hsec] at hval
      exact ⟨t, rfl, hsec, hval.symm⟩
    · simp [validateToken, jwtVerify, hsec] at hval

theorem users_monotone_map_touch (l : List UserRec) (i : Nat) (fname : String)
    {x : Nat} (h : ∃ u ∈ l, u.id = x) :
    ∃ u ∈ l.map (fun (u : UserRec) =>
      if u.id == i then { u with files := u.files ++ [fname] } else u),
      u.id = x := by
  obtain ⟨u, hu, hx⟩ := h
  refine ⟨if u.id == i then { u with files := u.files ++ [fname] } else u,
    List.mem_map_of_mem _ hu, ?_⟩
  by_cases hc : (u.id == i) = true
  · rw [if_pos hc]
    exact hx
  · rw [if_neg hc]
    exact hx

/-- The inductive invariant behind C6: along every reachable trace, every
minted token's userId claim and every file record's owner field name an
existing user. -/
theorem reachable_inv (secret : String) (st : ServerState) (toks : List Token)
    (h : Reachable secret st toks) :
    (∀ t ∈ toks, ∃ u ∈ st.users, u.id = t.claims.userId) ∧
    (∀ f ∈ st.files, ∃ u ∈ st.users, u.id = f.owner) := by
  induction h with
  | init =>
    constructor <;> intro x hx <;> simp [initialState] at hx
  | stepRegister st toks name email password createdAt h ih =>
    obtain ⟨ihT, ihF⟩ := ih
    cases hfind : st.users.find? (fun v => v.email == email) with
    | some w =>
      rw [register_of_find?_some hfind name password createdAt secret]
      simp only [mintedTokens, List.append_nil]
      exact ⟨ihT, ihF⟩
    | none =>
      rw [register_of_find?_none hfind name password createdAt secret]
      simp only [mintedTokens]
      constructor
      · intro t ht
        rw [List.mem_append] at ht
        rcases ht with ht | ht
        · obtain ⟨u, hu, hx⟩ := ihT t ht
          exact ⟨u, by simp [List.mem_append, hu], hx⟩
        · rw [List.mem_singleton] at ht
          subst ht
          exact ⟨⟨st.nextUserId, name, email, bcryptHash password, createdAt,
            []⟩, by simp, rfl⟩
      · intro f hf
        obtain ⟨u, hu, hx⟩ := ihF f hf
        exact ⟨u, by simp [List.mem_append, hu], hx⟩
  | stepLogin st toks email password dbFail h ih =>
    obtain ⟨ihT, ihF⟩ := ih
    refine ⟨?_, ihF⟩
    intro t ht
    rw [List.mem_append] at ht
    rcases ht with ht | ht
    · exact ihT t ht
    · cases hlog : login st email password secret dbFail with
      | error e =>
        rw [hlog] at ht
        simp [mintedTokens] at ht
      | ok r =>
        rw [hlog] at ht
        simp only [mintedTokens, List.mem_singleton] at ht
        subst ht
        obtain ⟨hmem, hid⟩ := login_ok_user_mem (u := r.1) (t := r.2)
          (by rw [hlog])
        exact ⟨r.1, hmem, hid.symm⟩
  | stepVerify st toks tokenHeader h ih => exact ih
  | stepGetFile st toks fileId storageErr h ih => exact ih
  | stepDelete st toks fileId storageErr h ih =>
    obtain ⟨ihT, ihF⟩ := ih
    cases storageErr with
    | true => exact ⟨ihT, ihF⟩
    | false => exact ⟨ihT, ihF⟩
  | stepUpload st toks tokenHeader payload hclosed h ih =>
    obtain ⟨ihT, ihF⟩ := ih
    cases hval : validateToken tokenHeader secret with
    | error e =>
      rw [uploadRoute_err hval st payload]
      exact ⟨ihT, ihF⟩
    | ok c =>
      obtain ⟨t, htok, hsec, hc⟩ := validateToken_ok_inv hval
      have ht : t ∈ toks := hclosed t htok hsec
      obtain ⟨u0, hu0, hx0⟩ := ihT t ht
      cases payload with
      | none =>
        rw [uploadRoute_noFile hval st]
        exact ⟨ihT, ihF⟩
      | some p =>
        rw [uploadRoute_ok hval st p]
        constructor
        · intro tk htk
          exact users_monotone_map_touch _ _ _ (ihT tk htk)
        · intro f hf
          simp only [List.mem_append, List.mem_singleton] at hf
          rcases hf with hf | hf
          · exact users_monotone_map_touch _ _ _ (ihF f hf)
          · subst hf
            exact users_monotone_map_touch _ _ _
              ⟨u0, hu0, by rw [hc]; exact hx0⟩

/-- C6: in every state reachable from the empty database by register,
login, verifyToken, upload, getFile and deleteFile (under the
closed-system no-forgery assumption), every File record's owner field
references an existing user record. -/
theorem reachable_owner_invariant (secret : String) (st : ServerState)
    (toks : List Token) (h : Reachable secret st toks) :
    ownerInvariant st = true := by
  have hF := (reachable_inv secret st toks h).2
  simp only [ownerInvariant, List.all_eq_true, List.any_eq_true]
  intro f hf
  obtain ⟨u, hu, hx⟩ := hF f hf
  exact ⟨u, hu, by simp [hx]⟩

/-- C6 witness: the owner invariant holds in the concrete reachable state
built by one register followed by one upload with the minted token. -/
theorem reachable_owner_invariant_witness :
    ownerInvariant
      (uploadRoute (register initialState "Alice" "alice@x.com" "pw1" 5
          "sec").1
        (some (jwtSign ⟨0, "Alice", "alice@x.com", bcryptHash "pw1", 5⟩ "sec"))
        "sec" (some ⟨"a.txt", "text/plain", 3⟩)).1 = true := by
  apply reachable_owner_invariant "sec" _
    [jwtSign ⟨0, "Alice", "alice@x.com", bcryptHash "pw1", 5⟩ "sec"]
  have h1 : Reachable "sec"
      (register initialState "Alice" "alice@x.com" "pw1" 5 "sec").1
      [jwtSign ⟨0, "Alice", "alice@x.com", bcryptHash "pw1", 5⟩ "sec"] :=
    Reachable.stepRegister initialState [] "Alice" "alice@x.com" "pw1" 5
      Reachable.init
  exact Reachable.stepUpload _ _
    (some (jwtSign ⟨0, "Alice", "alice@x.com", bcryptHash "pw1", 5⟩ "sec"))
    (some ⟨"a.txt", "text/plain", 3⟩)
    (fun t htok _ => by cases htok; exact List.Mem.head _) h1

/-- C9: registering a fresh email and then logging in with the same email
and password both succeed with the same user; the login token carries
exactly the same claims as the registration token (userId, name, email,
password hash, createdAt), and both tokens are accepted by the verify
step under the same signing secret, yielding those claims back. -/
theorem register_then_login_same_claims (st : ServerState)
    (name email password : String) (createdAt : Nat) (secret : String)
    (hnew : ∀ u ∈ st.users, u.email ≠ email) :
    ∀ u t1, (register st name email password createdAt secret).2
        = Except.ok (u, t1) →
      login (register st name email password createdAt secret).1 email
          password secret false
        = Except.ok (u, jwtSign t1.claims secret) ∧
      t1.claims = ⟨u.id, u.name, u.email, u.password, u.createdAt⟩ ∧
      jwtVerify t1 secret = some t1.claims ∧
      jwtVerify (jwtSign t1.claims secret) secret = some t1.claims := by
  intro u t1 h
  have hnone := find?_email_eq_none hnew
  rw [register_of_find?_none hnone] at h
  simp only [Except.ok.injEq, Prod.mk.injEq] at h
  obtain ⟨h1, h2⟩ := h
  subst h1
  subst h2
  have husers : (register st name email password createdAt secret).1.users
      = st.users ++
        [⟨st.nextUserId, name, email, bcryptHash password, createdAt, []⟩] := by
    rw [register_of_find?_none hnone]
  have hfind2 : (register st name email password createdAt
        secret).1.users.find? (fun v => v.email == email)
      = some ⟨st.nextUserId, name, email, bcryptHash password, createdAt,
          []⟩ := by
    rw [husers, List.find?_append, hnone]
    simp
  refine ⟨?_, rfl, by simp [jwtVerify, jwtSign], by simp [jwtVerify, jwtSign]⟩
  simp [login, hfind2, bcryptCompare, jwtSign]

/-- C9 witness: concrete register-then-login for Alice — the login token
repeats the registration token's claims, and both verify. -/
theorem register_then_login_same_claims_witness :
    login (register initialState "Alice" "alice@x.com" "pw1" 5 "sec").1
        "alice@x.com" "pw1" "sec" false
      = Except.ok (⟨0, "Alice", "alice@x.com", bcryptHash "pw1", 5, []⟩,
          jwtSign (jwtSign ⟨0, "Alice", "alice@x.com", bcryptHash "pw1", 5⟩
            "sec").claims "sec") ∧
    (jwtSign ⟨0, "Alice", "alice@x.com", bcryptHash "pw1", 5⟩ "sec").claims
      = ⟨0, "Alice", "alice@x.com", bcryptHash "pw1", 5⟩ ∧
    jwtVerify (jwtSign ⟨0, "Alice", "alice@x.com", bcryptHash "pw1", 5⟩ "sec")
        "sec"
      = some (jwtSign ⟨0, "Alice", "alice@x.com", bcryptHash "pw1", 5⟩
          "sec").claims ∧
    jwtVerify (jwtSign (jwtSign ⟨0, "Alice", "alice@x.com", bcryptHash "pw1",
          5⟩ "sec").claims "sec") "sec"
      = some (jwtSign ⟨0, "Alice", "alice@x.com", bcryptHash "pw1", 5⟩
          "sec").claims :=
  register_then_login_same_claims initialState "Alice" "alice@x.com" "pw1" 5
    "sec" (by intro u hu; simp [initialState] at hu)
    ⟨0, "Alice", "alice@x.com", bcryptHash "pw1", 5, []⟩
    (jwtSign ⟨0, "Alice", "alice@x.com", bcryptHash "pw1", 5⟩ "sec")
    (by decide)

end FileManager
